import Mathlib

/-!
Verification of the DeFi-risk-auditor audit pipeline.

This file gives a shallow embedding of the core of the repository
(ABI cache store, ABI resolver, feature extractor, risk-level mapping,
and the `run_audit` orchestration of `app/tasks/audit_tasks.py`) and
proves the behavioural properties stated about it.

External collaborators (the Etherscan registry, the Web3 RPC node, the
file system, the anomaly-scoring oracle and the wall clock) are modelled
as explicit parameters of the embedded functions: each fallible call is
an `Except String` value supplied by the environment, timestamps are
abstract `Nat` ticks, and the database rows owned by one execution are
threaded as explicit state.  Database commits themselves are assumed to
succeed (persistence is treated as a reliable row store, as the design
treats it).
-/

namespace DefiAudit

/-! ## ABI values

An interface definition (ABI) is an ordered list of descriptors.  The
feature extractor only inspects the `type`, `name` and `stateMutability`
keys of each descriptor, so those are the fields we keep; `name` is
optional because a descriptor dictionary may lack it (`it.get("name")`
yields `None` then), and `stateMutability` is optional because the code
reads it with a default: `it.get("stateMutability", "")`. -/

structure AbiItem where
  type : String
  name : Option String := none
  stateMutability : Option String := none
  deriving Repr, DecidableEq

/-- An interface definition: the JSON list stored and passed around. -/
abbrev Abi := List AbiItem

/-! ## ABI cache store (`app/models/contract_abi.py`, `app/services/abi_service.py`)

A `ContractABI` row.  `id`, indexes and column sizes are persistence
details we do not model; the store is the list of rows. -/

structure CacheRec where
  address : String
  network : String
  source : String
  abi : Abi
  created_at : Nat
  updated_at : Nat
  deriving Repr, DecidableEq

abbrev Store := List CacheRec

/-- ASCII lower-casing of one character, as Python's `str.lower`
behaves on the ASCII addresses and network names this system handles
(kernel-computable, unlike `String.toLower`). -/
def lowerChar (c : Char) : Char :=
  if 'A' ≤ c ∧ c ≤ 'Z' then Char.ofNat (c.toNat + 32) else c

/-- Python's `str.lower()` on ASCII text. -/
def strLower (s : String) : String := ⟨s.data.map lowerChar⟩

def isSpaceChar (c : Char) : Bool :=
  c == ' ' || c == '\t' || c == '\n' || c == '\r'

/-- Python's `str.strip()`: drop leading and trailing whitespace. -/
def strStrip (s : String) : String :=
  ⟨((s.data.dropWhile isSpaceChar).reverse.dropWhile isSpaceChar).reverse⟩

/-- Embedding of `_norm_net`: `(net or "sepolia").strip().lower()`.
`None` and the empty string are falsy in Python, so both fall back to
the default network. -/
def normNet (net : Option String) : String :=
  strLower (strStrip (match net with
   | none => "sepolia"
   | some s => if s = "" then "sepolia" else s))

/-- `_norm_addr` validates and canonicalises an address through
`Web3.to_checksum_address`, which raises on a malformed address.  The
checksum computation itself lives in the external web3 library, so it
is a parameter of the embedding: `none` models the raised exception,
`some ca` the checksummed form. -/
abbrev Checksum := String → Option String

/-- Replace the first list element satisfying `p` by `f` of it (the
SQLAlchemy `.first()` row being mutated in place); returns the new list
and the updated element when one was found. -/
def updateFirst (p : CacheRec → Bool) (f : CacheRec → CacheRec) :
    Store → Store × Option CacheRec
  | [] => ([], none)
  | r :: rs =>
    if p r then ((f r) :: rs, some (f r))
    else ((r :: (updateFirst p f rs).1), (updateFirst p f rs).2)

/-- The lookup key of a row for `(address, network)`: `save_abi` stores
`ca.lower()` where `ca` is the checksummed address. -/
def keyMatches (key nw : String) (r : CacheRec) : Bool :=
  r.address == key && r.network == nw

/-- The freshly inserted row of a `save_abi` call that found no
existing row for its key. -/
def saveRow (key nw : String) (abi : Abi) (src : String) (now : Nat) : CacheRec :=
  { address := key, network := nw, source := src, abi := abi,
    created_at := now, updated_at := now }

/-- Embedding of `save_abi` (`app/services/abi_service.py`): insert or
update the row for `(address, network)` and return the row.  The
JSON-string form of the `abi` argument is parsed into the same list
before storing, so we take the list directly.  Returns `Except`: the
`ValueError` of `_norm_addr` on an invalid address leaves the store
untouched. -/
def saveAbi (checksum : Checksum) (store : Store) (address : String)
    (abi : Abi) (network : Option String) (src : String) (now : Nat) :
    Except String (Store × CacheRec) :=
  match checksum address with
  | none => .error "Empty or invalid contract address"
  | some ca =>
    match updateFirst (keyMatches (strLower ca) (normNet network))
        (fun r => { r with abi := abi, source := src, updated_at := now }) store with
    | (store2, some row) => .ok (store2, row)
    | (_, none) =>
      .ok (store ++ [saveRow (strLower ca) (normNet network) abi src now],
           saveRow (strLower ca) (normNet network) abi src now)

/-- Number of rows in the store for a given `(key, network)` pair. -/
def keyCount (store : Store) (key nw : String) : Nat :=
  (store.filter (keyMatches key nw)).length

/-- The uniqueness invariant of `contract_abis`: at most one row per
`(address, network)` pair. -/
def AtMostOnePerKey (store : Store) : Prop :=
  ∀ key nw, keyCount store key nw ≤ 1

/-! ## Feature extraction (`_extract_features`, `app/tasks/audit_tasks.py`)

The loop over the ABI collects the names of all `"function"`-typed
descriptors and splits them by declared mutability: the code reads
`it.get("stateMutability", "")` and tests `mut in ("view", "pure")`. -/

/-- The `"function"`-typed descriptors of an interface. -/
def functionItems (abi : Abi) : List AbiItem :=
  abi.filter (fun it => it.type == "function")

/-- `fn_names`: names of all function descriptors, in order (a
descriptor without a `name` key contributes `None`). -/
def fnNames (abi : Abi) : List (Option String) :=
  (functionItems abi).map (·.name)

/-- Whether a descriptor's declared mutability is read-only: exactly
the strings `"view"` or `"pure"`, with `""` as the missing-key default. -/
def isViewMutability (it : AbiItem) : Bool :=
  let m := it.stateMutability.getD ""
  m == "view" || m == "pure"

/-- `view_fns`: names of the read-only function descriptors. -/
def viewFns (abi : Abi) : List (Option String) :=
  ((functionItems abi).filter isViewMutability).map (·.name)

/-- `write_fns`: names of the state-changing function descriptors
(everything not declared `view`/`pure`). -/
def writeFns (abi : Abi) : List (Option String) :=
  ((functionItems abi).filter (fun it => !isViewMutability it)).map (·.name)

/-- The eight name-presence risk flags, in the order the code builds the
`flags` dict.  Membership tests mirror `"approve" in fn_names` etc. -/
structure RiskFlags where
  has_approve : Bool
  has_transferFrom : Bool
  has_mint : Bool
  has_burn : Bool
  has_pause : Bool
  has_owner : Bool
  has_transferOwnership : Bool
  has_withdraw : Bool
  deriving Repr, DecidableEq

def mkFlags (names : List (Option String)) : RiskFlags where
  has_approve := names.contains (some "approve")
  has_transferFrom := names.contains (some "transferFrom")
  has_mint := names.contains (some "mint") || names.contains (some "mintTo")
  has_burn := names.contains (some "burn")
  has_pause := names.contains (some "pause") || names.contains (some "paused")
  has_owner := names.contains (some "owner") || names.contains (some "getOwner")
  has_transferOwnership := names.contains (some "transferOwnership")
  has_withdraw := names.contains (some "withdraw")

/-- `flags.values()` in dict insertion order. -/
def RiskFlags.values (f : RiskFlags) : List Bool :=
  [f.has_approve, f.has_transferFrom, f.has_mint, f.has_burn,
   f.has_pause, f.has_owner, f.has_transferOwnership, f.has_withdraw]

/-- `sum(1 for v in flags.values() if v)`. -/
def RiskFlags.trueCount (f : RiskFlags) : Nat :=
  (f.values.map (fun v => if v then 1 else 0)).sum

/-- The feature vector produced by `_extract_features`.  Metadata
values are uninterpreted payloads returned by the on-chain calls; a missing
field means the corresponding key is absent from the features dict. -/
structure Features where
  total_functions : Nat
  write_functions : Nat
  view_functions : Nat
  write_ratio : ℚ
  risky_flags : Nat
  is_contract : Bool
  code_len : Nat
  flags : RiskFlags
  name : Option String := none
  symbol : Option String := none
  decimals : Option String := none
  totalSupply : Option String := none
  deriving Repr, DecidableEq

/-- The on-chain environment seen by one extraction: the result of the
`get_code` probe (an RPC call that may raise), and for each metadata key
the outcome of `_safe_call` — `some v` when the function exists in the
ABI and the call succeeded, `none` when it is absent or the call raised
(`_safe_call` itself never raises: it catches every exception). -/
structure ChainEnv where
  get_code : Except String Nat
  meta : String → Option String

/-- The feature record `_extract_features` assembles once the external
calls have answered: `total = len(fn_names) or 1` is the ratio
denominator, `write_ratio = len(write_fns) / total`, `risky_flags`
sums the true flags, `is_contract = code_len > 0`, and each metadata
key appears exactly when its best-effort call succeeded. -/
def buildFeatures (meta : String → Option String) (code_len : Nat)
    (abi : Abi) : Features :=
  { total_functions := (fnNames abi).length
    write_functions := (writeFns abi).length
    view_functions := (viewFns abi).length
    write_ratio := ((writeFns abi).length : ℚ) /
      ((if (fnNames abi).length = 0 then 1 else (fnNames abi).length : Nat) : ℚ)
    risky_flags := (mkFlags (fnNames abi)).trueCount
    is_contract := decide (0 < code_len)
    code_len := code_len
    flags := mkFlags (fnNames abi)
    name := meta "name"
    symbol := meta "symbol"
    decimals := meta "decimals"
    totalSupply := meta "totalSupply" }

/-- Embedding of `_extract_features`.  Building the contract object
checksums the address (raising on a malformed one), then the loop over
the ABI fills the buckets, `get_code` probes the chain, and the four
metadata calls are each independently best-effort. -/
def extractFeatures (checksum : Checksum) (env : ChainEnv)
    (address : String) (abi : Abi) : Except String Features :=
  match checksum address with
  | none => .error "Empty or invalid contract address"
  | some _ =>
    match env.get_code with
    | .error e => .error e
    | .ok code_len => .ok (buildFeatures env.meta code_len abi)

/-! ## Risk level (`_level_from_score`) -/

/-- Embedding of `_level_from_score`: fixed thresholds, no other input. -/
def levelFromScore (score : ℚ) : String :=
  if score ≥ 7/10 then "high"
  else if score ≥ 55/100 then "medium"
  else "low"

/-! ## Python truthiness coercion (`_as_bool`) -/

/-- The Python values that reach `_as_bool` in practice: booleans,
integers and strings, with their `str()` forms. -/
inductive PyVal where
  | pybool (b : Bool)
  | pyint (n : Int)
  | pystr (s : String)
  deriving Repr, DecidableEq

/-- Python's `str(v)` on the modelled values: `str(True) = "True"`,
`str(2) = "2"`, strings unchanged. -/
def pyStr : PyVal → String
  | .pybool true => "True"
  | .pybool false => "False"
  | .pyint n => toString n
  | .pystr s => s

/-- Embedding of `_as_bool`: `str(v).lower() in ("1", "true", "yes", "on")`. -/
def asBool (v : PyVal) : Bool :=
  ["1", "true", "yes", "on"].contains (strLower (pyStr v))

/-! ## ABI resolver (`_resolve_abi`, `app/services/blockchain_service.py`)

The resolver's external collaborators for one call: the file system
(path → parsed ABI when the file exists), the outcome of an Etherscan
fetch for this address/network (the same outcome for the whole call),
and the `CONTRACT_ABI_PATH` environment variable. -/

structure ResolveEnv where
  checksum : Checksum
  files : String → Option Abi
  fetchRes : Except String Abi
  env_abi_path : Option String
  now : Nat

/-- The options `_resolve_abi` recognises.  An inline ABI given as a
JSON string is parsed into the same list, so we take the list form. -/
structure ResolveOpts where
  abi_inline : Option Abi := none
  abi_path : Option String := none
  network : String := "sepolia"
  force_refresh : Bool := false
  cache_manual : Bool := false

/-- The exceptions `_resolve_abi` can raise, tagged by raise site. -/
inductive ResolveErr where
  | invalidAddress
  | fileNotFound (path : String)
  | fetchFailed (msg : String)
  | unresolved
  deriving Repr, DecidableEq

/-- Embedding of `get_cached_record` / `get_cached_abi`'s lookup:
first row for `(checksum(address).lower(), norm(network))`. -/
def getCachedRecord (checksum : Checksum) (store : Store)
    (address : String) (network : String) : Except String (Option CacheRec) :=
  match checksum address with
  | none => .error "Empty or invalid contract address"
  | some ca => .ok (store.find? (keyMatches (strLower ca) (normNet (some network))))

/-- Embedding of `_resolve_abi`.  Returns the resolved ABI together
with the store as left by any persistence the call performed. -/
def resolveAbi (env : ResolveEnv) (store : Store) (address : String)
    (opts : ResolveOpts) : Except ResolveErr (Abi × Store) :=
  match opts.abi_inline with
  | some abi =>
    if opts.cache_manual then
      match saveAbi env.checksum store address abi (some opts.network) "manual" env.now with
      | .error _ => .error .invalidAddress
      | .ok (store2, _) => .ok (abi, store2)
    else .ok (abi, store)
  | none =>
  match opts.abi_path with
  | some p =>
    match env.files p with
    | none => .error (.fileNotFound p)
    | some abi => .ok (abi, store)
  | none =>
  if opts.force_refresh then
    match env.fetchRes with
    | .error e => .error (.fetchFailed e)
    | .ok fresh =>
      match saveAbi env.checksum store address fresh (some opts.network) "etherscan" env.now with
      | .error _ => .error .invalidAddress
      | .ok (store2, row) => .ok (row.abi, store2)
  else
  match getCachedRecord env.checksum store address opts.network with
  | .error _ => .error .invalidAddress
  | .ok (some row) => .ok (row.abi, store)
  | .ok none =>
    -- `get_or_fetch_record`: the cache was just found empty, so it
    -- fetches from Etherscan and persists the result.
    match env.fetchRes with
    | .error e => .error (.fetchFailed e)
    | .ok fresh =>
      match saveAbi env.checksum store address fresh (some opts.network) "etherscan" env.now with
      | .error _ => .error .invalidAddress
      | .ok (store2, row) =>
        if row.abi ≠ [] then .ok (row.abi, store2)
        else
          -- Último fallback: the `CONTRACT_ABI_PATH` env file.
          match env.env_abi_path with
          | some p =>
            (match env.files p with
             | some abi => .ok (abi, store2)
             | none => .error .unresolved)
          | none => .error .unresolved

/-- The resolution chain exactly as the specification words it: the
five sources are tried in order and the first that produces a
definition wins; if none produces one the call fails with
`AbiUnresolved`.  (Written from the spec's words, to be compared with
`resolveAbi`, which is written from the source.) -/
def resolveSpecChain (env : ResolveEnv) (store : Store) (address : String)
    (opts : ResolveOpts) : Except ResolveErr (Abi × Store) :=
  -- 1. the inline definition, if supplied
  match opts.abi_inline with
  | some abi =>
    if opts.cache_manual then
      match saveAbi env.checksum store address abi (some opts.network) "manual" env.now with
      | .error _ => .error .invalidAddress
      | .ok (store2, _) => .ok (abi, store2)
    else .ok (abi, store)
  | none =>
  -- 2. the filePath resource, if supplied and the file exists
  match opts.abi_path.bind env.files with
  | some abi => .ok (abi, store)
  | none =>
  -- 3. remote-registry fetch when forceRefresh is set, persisted
  if opts.force_refresh then
    match env.fetchRes with
    | .error e => .error (.fetchFailed e)
    | .ok fresh =>
      match saveAbi env.checksum store address fresh (some opts.network) "etherscan" env.now with
      | .error _ => .error .invalidAddress
      | .ok (store2, row) => .ok (row.abi, store2)
  else
  -- 4. the cache entry as-is
  match getCachedRecord env.checksum store address opts.network with
  | .error _ => .error .invalidAddress
  | .ok (some row) => .ok (row.abi, store)
  | .ok none =>
    -- 5. a final remote-registry fetch, persisted
    match env.fetchRes with
    | .error e => .error (.fetchFailed e)
    | .ok fresh =>
      match saveAbi env.checksum store address fresh (some opts.network) "etherscan" env.now with
      | .error _ => .error .invalidAddress
      | .ok (store2, row) =>
        if row.abi ≠ [] then .ok (row.abi, store2)
        -- 6. none of the sources produced a definition
        else .error .unresolved

/-! ## Audit/Job orchestration (`run_audit`, `app/tasks/audit_tasks.py`) -/

/-- What the anomaly scorer returns (`risk_score` already squashed to
`[0,1]` and rounded; `raw` the negated oracle magnitude).  The
`features_used`/`model`/`source` entries of the dict carry no further
information for the orchestration. -/
structure ScoreOut where
  risk_score : ℚ
  raw : ℚ
  deriving Repr, DecidableEq

/-- The audit `summary` payload built on success. -/
structure AuditSummary where
  address : String
  network : String
  name : Option String
  symbol : Option String
  decimals : Option String
  code_len : Nat
  total_functions : Nat
  deriving Repr, DecidableEq

/-- What the audit `details` column can hold: the raw scorer output
(the only payload the code ever writes) or an error text (what the
specification expects on failure). -/
inductive AuditDetails where
  | iaRaw (ia : ScoreOut)
  | errText (msg : String)
  deriving Repr, DecidableEq

/-- A `ContractAudit` row as `run_audit` shapes it. -/
structure AuditRec where
  address : String
  network : String
  status : String
  started_at : Nat
  finished_at : Option Nat := none
  ai_score : Option ℚ := none
  risk_level : Option String := none
  summary : Option AuditSummary := none
  features : Option Features := none
  details : Option AuditDetails := none
  deriving Repr, DecidableEq

/-- The `result` payload of an `AnalysisJob` row. -/
inductive JobResult where
  | ok (audit_id : Nat) (ai_score : ℚ) (risk_level : String)
  | err (msg : String)
  deriving Repr, DecidableEq

/-- An `AnalysisJob` row, reduced to the fields `run_audit` writes. -/
structure JobRec where
  status : String
  result : Option JobResult := none
  deriving Repr, DecidableEq

/-- The value `run_audit` returns when it does not raise. -/
inductive RunRet where
  | jobMissing (job_id : Nat)
  | finished (audit_id : Nat) (ai_score : ℚ) (risk_level : String)
  deriving Repr, DecidableEq

/-- Everything external one `run_audit` execution consumes: whether the
job row exists, the id the store assigns to the new audit row, the
outcome of `_make_w3`, the address checksummer, the outcome of an
Etherscan fetch, the on-chain probe environment, the outcome of
`risk_score`, and the two clock readings (`started_at`, `finished_at`). -/
structure RunEnv where
  jobExists : Bool
  audit_id : Nat
  w3 : Except String Unit
  checksum : Checksum
  fetchRes : Except String Abi
  chain : ChainEnv
  scoreRes : Except String ScoreOut
  now1 : Nat
  now2 : Nat

/-- The observable outcome of one `run_audit` execution: the audit row
it created (if any), the job row as it left it (when the job exists),
the cache store, and either the returned dict or the re-raised error. -/
structure RunResult where
  audit : Option AuditRec
  job : Option JobRec
  store : Store
  outcome : Except String RunRet

/-- Embedding of `get_or_fetch_abi` (= `get_abi_for_address`):
return the cached ABI when a row exists and its ABI is non-empty
(`if cached:` — an empty list is falsy), otherwise fetch from Etherscan
and persist with source `"etherscan"`. -/
def getAbiForAddress (checksum : Checksum) (store : Store)
    (address : String) (network : String) (fetchRes : Except String Abi)
    (now : Nat) : Except String (Abi × Store) :=
  match getCachedRecord checksum store address network with
  | .error e => .error e
  | .ok cached =>
    match cached.map (·.abi) with
    | some abi =>
      if abi ≠ [] then .ok (abi, store)
      else fetchAndSave checksum store address network fetchRes now
    | none => fetchAndSave checksum store address network fetchRes now
where
  fetchAndSave (checksum : Checksum) (store : Store) (address : String)
      (network : String) (fetchRes : Except String Abi) (now : Nat) :
      Except String (Abi × Store) :=
    match fetchRes with
    | .error e => .error e
    | .ok fresh =>
      match saveAbi checksum store address fresh (some network) "etherscan" now with
      | .error e => .error e
      | .ok (store2, _) => .ok (fresh, store2)

/-- The fallible body of `run_audit`'s `try` block, up to the point
where every value needed for the success writes is in hand.  The store
is carried in the error channel too: a commit inside `save_abi` that
happened before the failure stays committed. -/
def runAuditBody (env : RunEnv) (store : Store) (address : String)
    (network : String) (force_refresh : PyVal) :
    Except (String × Store) (Abi × Features × ScoreOut × Store) :=
  match env.w3 with
  | .error e => .error (e, store)
  | .ok _ =>
    let resolved : Except String (Abi × Store) :=
      if asBool force_refresh then
        match env.fetchRes with
        | .error e => .error e
        | .ok fresh =>
          match saveAbi env.checksum store address fresh (some network) "etherscan" env.now1 with
          | .error e => .error e
          | .ok (store2, _) => .ok (fresh, store2)
      else getAbiForAddress env.checksum store address network env.fetchRes env.now1
    match resolved with
    | .error e => .error (e, store)
    | .ok (abi, store2) =>
      if abi = [] then .error ("No se pudo resolver la ABI para el contrato", store2)
      else
        match extractFeatures env.checksum env.chain address abi with
        | .error e => .error (e, store2)
        | .ok feats =>
          match env.scoreRes with
          | .error e => .error (e, store2)
          | .ok ia => .ok (abi, feats, ia, store2)

/-- Embedding of `run_audit`.  The audit row is created (status
`running`) and committed before the `try` block; on success all result
fields are written and both rows move to `done`; any exception inside
the `try` block moves both rows to `error`, sets `finished_at`, stores
the error text in the job's `result`, and re-raises. -/
def runAudit (env : RunEnv) (store : Store) (job_id : Nat)
    (address : String) (network : String) (force_refresh : PyVal) :
    RunResult :=
  if !env.jobExists then
    { audit := none, job := none, store := store,
      outcome := .ok (.jobMissing job_id) }
  else
    let audit0 : AuditRec :=
      { address := strLower address, network := network,
        status := "running", started_at := env.now1 }
    match runAuditBody env store address network force_refresh with
    | .ok (_, feats, ia, store2) =>
      let score := ia.risk_score
      let level := levelFromScore score
      let summary : AuditSummary :=
        { address := address, network := network, name := feats.name,
          symbol := feats.symbol, decimals := feats.decimals,
          code_len := feats.code_len, total_functions := feats.total_functions }
      let audit : AuditRec :=
        { audit0 with ai_score := some score, risk_level := some level,
                      summary := some summary, features := some feats,
                      details := some (.iaRaw ia), status := "done",
                      finished_at := some env.now2 }
      { audit := some audit,
        job := some { status := "done",
                      result := some (.ok env.audit_id score level) },
        store := store2,
        outcome := .ok (.finished env.audit_id score level) }
    | .error (e, store2) =>
      { audit := some { audit0 with status := "error",
                                    finished_at := some env.now2 },
        job := some { status := "error", result := some (.err e) },
        store := store2,
        outcome := .error e }

/-! ## A sequence of `save_abi` calls

For the cache-uniqueness invariant we quantify over arbitrary call
sequences; a call that raises (invalid address) leaves the store
unchanged. -/

structure SaveCall where
  address : String
  abi : Abi
  network : Option String
  src : String
  now : Nat

def applySave (checksum : Checksum) (store : Store) (c : SaveCall) : Store :=
  match saveAbi checksum store c.address c.abi c.network c.src c.now with
  | .error _ => store
  | .ok (store2, _) => store2

def applySaves (checksum : Checksum) (store : Store) (cs : List SaveCall) : Store :=
  cs.foldl (applySave checksum) store

/-! ## Concrete fixtures

Small concrete instantiations of the external collaborators, used to
evaluate the embedded functions at specific inputs. -/

/-- A concrete checksummer: every non-empty string is a valid address
kept verbatim. -/
def cksFix : Checksum := fun s => if s = "" then none else some s

def abiFixA : Abi :=
  [{ type := "function", name := some "approve", stateMutability := some "nonpayable" },
   { type := "function", name := some "name", stateMutability := some "view" }]

def abiFixB : Abi := [{ type := "function", name := some "mint" }]

/-- The cache row left by `save_abi cksFix [] "0xAB" abiFixA … "manual" 5`. -/
def rowFixA : CacheRec := saveRow "0xab" "sepolia" abiFixA "manual" 5

/-- `rowFixA` after a second upsert with `abiFixB`/`"etherscan"` at time 9. -/
def rowFixB : CacheRec :=
  { rowFixA with abi := abiFixB, source := "etherscan", updated_at := 9 }

/-- `rowFixA` after a forced-refresh upsert with `abiFixB` at time 10. -/
def rowFixC : CacheRec :=
  { rowFixA with abi := abiFixB, source := "etherscan", updated_at := 10 }

/-- A file system holding exactly one ABI file, `g.json`. -/
def filesFix : String → Option Abi :=
  fun p => if p = "g.json" then some abiFixB else none

/-- A resolver environment whose Etherscan fetch fails. -/
def renvFix : ResolveEnv :=
  { checksum := cksFix, files := filesFix,
    fetchRes := .error "ETHERSCAN_API_KEY is not set",
    env_abi_path := none, now := 7 }

/-- An on-chain environment where the `name` call succeeds and every
other metadata call fails. -/
def chainFix : ChainEnv :=
  { get_code := .ok 120,
    meta := fun k => if k = "name" then some "Tok" else none }

/-- A run environment where everything external succeeds. -/
def runEnvOk : RunEnv :=
  { jobExists := true, audit_id := 3, w3 := .ok (), checksum := cksFix,
    fetchRes := .ok abiFixB, chain := chainFix,
    scoreRes := .ok { risk_score := 3/4, raw := 1/2 },
    now1 := 10, now2 := 20 }

/-- `runEnvOk` with a failing Etherscan fetch. -/
def runEnvErr : RunEnv :=
  { runEnvOk with fetchRes := .error "Etherscan error: NOTOK" }

/-! ## Lemmas about `updateFirst` and `saveAbi` -/

theorem updateFirst_fst_length (p : CacheRec → Bool) (f : CacheRec → CacheRec)
    (l : Store) : (updateFirst p f l).1.length = l.length := by
  induction l with
  | nil => rfl
  | cons r rs ih =>
    by_cases hp : p r <;> simp [updateFirst, hp, ih]

theorem updateFirst_snd_none_fst (p : CacheRec → Bool) (f : CacheRec → CacheRec)
    (l : Store) (h : (updateFirst p f l).2 = none) :
    (updateFirst p f l).1 = l := by
  induction l with
  | nil => rfl
  | cons r rs ih =>
    by_cases hp : p r
    · simp [updateFirst, hp] at h
    · simp only [updateFirst, hp, if_false, Bool.false_eq_true] at h ⊢
      simp [ih h]

theorem updateFirst_snd_none_filter (p : CacheRec → Bool) (f : CacheRec → CacheRec)
    (l : Store) (h : (updateFirst p f l).2 = none) :
    l.filter p = [] := by
  induction l with
  | nil => rfl
  | cons r rs ih =>
    by_cases hp : p r
    · simp [updateFirst, hp] at h
    · simp only [updateFirst, hp, if_false, Bool.false_eq_true] at h
      simp [List.filter_cons, hp, ih h]

theorem updateFirst_filter_length (p q : CacheRec → Bool) (f : CacheRec → CacheRec)
    (hq : ∀ r, q (f r) = q r) (l : Store) :
    ((updateFirst p f l).1.filter q).length = (l.filter q).length := by
  induction l with
  | nil => rfl
  | cons r rs ih =>
    by_cases hp : p r
    · by_cases hqr : q r <;>
        simp [updateFirst, hp, List.filter_cons, hq, hqr]
    · by_cases hqr : q r <;>
        simp [updateFirst, hp, List.filter_cons, hqr, ih]

theorem updateFirst_snd_some_p (p : CacheRec → Bool) (f : CacheRec → CacheRec)
    (hf : ∀ r, p (f r) = p r) (l : Store) (r' : CacheRec)
    (h : (updateFirst p f l).2 = some r') : p r' = true := by
  induction l with
  | nil => simp [updateFirst] at h
  | cons r rs ih =>
    by_cases hp : p r
    · simp only [updateFirst, hp, if_true] at h
      cases h
      rw [hf]; exact hp
    · simp only [updateFirst, hp, if_false, Bool.false_eq_true] at h
      exact ih h

theorem updateFirst_snd_some_filter (p : CacheRec → Bool) (f : CacheRec → CacheRec)
    (hf : ∀ r, p (f r) = p r) (l : Store) (r' : CacheRec)
    (hlen : (l.filter p).length ≤ 1)
    (h : (updateFirst p f l).2 = some r') :
    (updateFirst p f l).1.filter p = [r'] := by
  induction l with
  | nil => simp [updateFirst] at h
  | cons r rs ih =>
    by_cases hp : p r
    · simp only [updateFirst, hp, if_true] at h ⊢
      cases h
      have hfr : p (f r) = true := by rw [hf]; exact hp
      have hrs : rs.filter p = [] := by
        have := hlen
        simp [List.filter_cons, hp] at this
        exact List.filter_eq_nil_iff.mpr (by simpa using this)
      simp [List.filter_cons, hfr, hrs]
    · simp only [updateFirst, hp, if_false, Bool.false_eq_true] at h ⊢
      have hlen' : (rs.filter p).length ≤ 1 := by
        simpa [List.filter_cons, hp] using hlen
      simp [List.filter_cons, hp, ih hlen' h]

theorem updateFirst_snd_some_exists (p : CacheRec → Bool) (f : CacheRec → CacheRec)
    (l : Store) (r' : CacheRec) (h : (updateFirst p f l).2 = some r') :
    ∃ r, r' = f r := by
  induction l with
  | nil => simp [updateFirst] at h
  | cons r rs ih =>
    by_cases hp : p r
    · simp only [updateFirst, hp, if_true] at h
      exact ⟨r, (Option.some_injective _ h).symm⟩
    · simp only [updateFirst, hp, if_false, Bool.false_eq_true] at h
      exact ih h

/-- The row-updating function `save_abi` applies never changes the
lookup key of the row. -/
theorem keyMatches_setFields (key nw : String) (abi : Abi) (src : String)
    (now : Nat) (r : CacheRec) :
    keyMatches key nw { r with abi := abi, source := src, updated_at := now } =
      keyMatches key nw r := rfl

/-- Unfolding equation for `saveAbi` on a valid address. -/
theorem saveAbi_eq (checksum : Checksum) (store : Store) (a : String)
    (abi : Abi) (net : Option String) (src : String) (now : Nat) (ca : String)
    (hc : checksum a = some ca) :
    saveAbi checksum store a abi net src now =
      match updateFirst (keyMatches (strLower ca) (normNet net))
          (fun r => { r with abi := abi, source := src, updated_at := now }) store with
      | (store2, some row) => .ok (store2, row)
      | (_, none) =>
        .ok (store ++ [saveRow (strLower ca) (normNet net) abi src now],
             saveRow (strLower ca) (normNet net) abi src now) := by
  unfold saveAbi
  rw [hc]

/-- A successful `save_abi` returns a row carrying the key computed
from its arguments and the freshly stored values. -/
theorem saveAbi_ok_row (checksum : Checksum) (store : Store) (a : String)
    (abi : Abi) (net : Option String) (src : String) (now : Nat)
    (s2 : Store) (row : CacheRec)
    (h : saveAbi checksum store a abi net src now = .ok (s2, row)) :
    ∃ ca, checksum a = some ca ∧
      row.address = strLower ca ∧ row.network = normNet net ∧
      row.abi = abi ∧ row.source = src ∧ row.updated_at = now := by
  cases hc : checksum a with
  | none => unfold saveAbi at h; rw [hc] at h; exact absurd h (by simp)
  | some ca =>
    rw [saveAbi_eq checksum store a abi net src now ca hc] at h
    refine ⟨ca, rfl, ?_⟩
    set p := keyMatches (strLower ca) (normNet net) with hp
    set f : CacheRec → CacheRec :=
      fun r => { r with abi := abi, source := src, updated_at := now } with hfdef
    cases hu : updateFirst p f store with
    | mk fst snd =>
      rw [hu] at h
      have hsnd : (updateFirst p f store).2 = snd := by rw [hu]
      cases snd with
      | some row2 =>
        simp only [Except.ok.injEq, Prod.mk.injEq] at h
        obtain ⟨-, hrow⟩ := h
        subst hrow
        have hkey : p row2 = true :=
          updateFirst_snd_some_p p f (fun r => rfl) store row2 hsnd
        obtain ⟨r0, hr0⟩ := updateFirst_snd_some_exists p f store row2 hsnd
        have haddr : row2.address = strLower ca ∧ row2.network = normNet net := by
          rw [hp] at hkey
          simp only [keyMatches, Bool.and_eq_true, beq_iff_eq] at hkey
          exact hkey
        exact ⟨haddr.1, haddr.2, by rw [hr0], by rw [hr0], by rw [hr0]⟩
      | none =>
        simp only [Except.ok.injEq, Prod.mk.injEq] at h
        obtain ⟨-, hrow⟩ := h
        subst hrow
        exact ⟨rfl, rfl, rfl, rfl, rfl⟩

/-- `save_abi` never lets a second row for any `(address, network)`
pair appear: the uniqueness invariant is preserved. -/
theorem saveAbi_preserves_atMostOne (checksum : Checksum) (store : Store)
    (a : String) (abi : Abi) (net : Option String) (src : String) (now : Nat)
    (s2 : Store) (row : CacheRec)
    (hinv : AtMostOnePerKey store)
    (h : saveAbi checksum store a abi net src now = .ok (s2, row)) :
    AtMostOnePerKey s2 := by
  cases hc : checksum a with
  | none => unfold saveAbi at h; rw [hc] at h; exact absurd h (by simp)
  | some ca =>
    rw [saveAbi_eq checksum store a abi net src now ca hc] at h
    set p := keyMatches (strLower ca) (normNet net) with hp
    set f : CacheRec → CacheRec :=
      fun r => { r with abi := abi, source := src, updated_at := now } with hfdef
    cases hu : updateFirst p f store with
    | mk fst snd =>
      rw [hu] at h
      have hfst : (updateFirst p f store).1 = fst := by rw [hu]
      have hsnd : (updateFirst p f store).2 = snd := by rw [hu]
      cases snd with
      | some row2 =>
        simp only [Except.ok.injEq, Prod.mk.injEq] at h
        obtain ⟨hs2, -⟩ := h
        subst hs2
        intro key nw
        have := updateFirst_filter_length p (keyMatches key nw) f
          (fun r => rfl) store
        unfold keyCount
        rw [← hfst, this]
        exact hinv key nw
      | none =>
        simp only [Except.ok.injEq, Prod.mk.injEq] at h
        obtain ⟨hs2, hrow⟩ := h
        subst hs2
        intro key nw
        unfold keyCount
        rw [List.filter_append]
        by_cases hk :
            keyMatches key nw (saveRow (strLower ca) (normNet net) abi src now) = true
        · have hkey : key = strLower ca ∧ nw = normNet net := by
            simp only [keyMatches, saveRow, Bool.and_eq_true, beq_iff_eq] at hk
            exact ⟨hk.1.symm, hk.2.symm⟩
          have hstore : store.filter p = [] :=
            updateFirst_snd_none_filter p f store hsnd
          have hnil : store.filter (keyMatches key nw) = [] := by
            rw [hkey.1, hkey.2, ← hp]; exact hstore
          simp [hnil, hk]
        · have hk' :
              keyMatches key nw (saveRow (strLower ca) (normNet net) abi src now)
                = false := by simpa using hk
          simp only [List.filter_cons, hk', List.filter_nil, if_false,
            Bool.false_eq_true]
          simpa [keyCount] using hinv key nw

/-- After a successful `save_abi` on a store satisfying the invariant,
the store holds exactly one row for the saved key, and it is the
returned row. -/
theorem saveAbi_filter_eq (checksum : Checksum) (store : Store)
    (a : String) (abi : Abi) (net : Option String) (src : String) (now : Nat)
    (s2 : Store) (row : CacheRec)
    (hinv : AtMostOnePerKey store)
    (h : saveAbi checksum store a abi net src now = .ok (s2, row)) :
    s2.filter (keyMatches row.address row.network) = [row] := by
  obtain ⟨ca, hc, haddr, hnet, -, -, -⟩ :=
    saveAbi_ok_row checksum store a abi net src now s2 row h
  rw [saveAbi_eq checksum store a abi net src now ca hc] at h
  set p := keyMatches (strLower ca) (normNet net) with hp
  set f : CacheRec → CacheRec :=
    fun r => { r with abi := abi, source := src, updated_at := now } with hfdef
  have hpred : keyMatches row.address row.network = p := by
    rw [haddr, hnet, hp]
  rw [hpred]
  cases hu : updateFirst p f store with
  | mk fst snd =>
    rw [hu] at h
    have hfst : (updateFirst p f store).1 = fst := by rw [hu]
    have hsnd : (updateFirst p f store).2 = snd := by rw [hu]
    cases snd with
    | some row2 =>
      simp only [Except.ok.injEq, Prod.mk.injEq] at h
      obtain ⟨hs2, hrow⟩ := h
      subst hs2; subst hrow
      rw [← hfst]
      exact updateFirst_snd_some_filter p f (fun r => rfl) store row2
        (hinv (strLower ca) (normNet net)) hsnd
    | none =>
      simp only [Except.ok.injEq, Prod.mk.injEq] at h
      obtain ⟨hs2, hrow⟩ := h
      subst hs2
      have hstore : store.filter p = [] :=
        updateFirst_snd_none_filter p f store hsnd
      rw [List.filter_append, hstore]
      have hk : p row = true := by
        rw [← hrow]
        simp [hp, keyMatches, saveRow]
      simp [hk, hrow]

/-- When a row for the key already exists, `save_abi` updates it in
place: the store does not grow. -/
theorem saveAbi_update_length (checksum : Checksum) (store : Store)
    (a : String) (abi : Abi) (net : Option String) (src : String) (now : Nat)
    (s2 : Store) (row : CacheRec) (ca : String)
    (hc : checksum a = some ca)
    (hexist : store.filter (keyMatches (strLower ca) (normNet net)) ≠ [])
    (h : saveAbi checksum store a abi net src now = .ok (s2, row)) :
    s2.length = store.length := by
  rw [saveAbi_eq checksum store a abi net src now ca hc] at h
  set p := keyMatches (strLower ca) (normNet net) with hp
  set f : CacheRec → CacheRec :=
    fun r => { r with abi := abi, source := src, updated_at := now } with hfdef
  cases hu : updateFirst p f store with
  | mk fst snd =>
    rw [hu] at h
    have hfst : (updateFirst p f store).1 = fst := by rw [hu]
    have hsnd : (updateFirst p f store).2 = snd := by rw [hu]
    cases snd with
    | some row2 =>
      simp only [Except.ok.injEq, Prod.mk.injEq] at h
      obtain ⟨hs2, -⟩ := h
      subst hs2
      rw [← hfst]
      exact updateFirst_fst_length p f store
    | none =>
      exact absurd (updateFirst_snd_none_filter p f store hsnd) hexist

theorem atMostOne_nil : AtMostOnePerKey ([] : Store) := by
  intro key nw; simp [keyCount]

theorem applySave_preserves (checksum : Checksum) (store : Store) (c : SaveCall)
    (h : AtMostOnePerKey store) :
    AtMostOnePerKey (applySave checksum store c) := by
  unfold applySave
  cases hs : saveAbi checksum store c.address c.abi c.network c.src c.now with
  | error e => exact h
  | ok pr =>
    cases pr with
    | mk s2 row =>
      exact saveAbi_preserves_atMostOne checksum store c.address c.abi
        c.network c.src c.now s2 row h hs

theorem applySaves_preserves (checksum : Checksum) (cs : List SaveCall) :
    ∀ store, AtMostOnePerKey store →
      AtMostOnePerKey (applySaves checksum store cs) := by
  induction cs with
  | nil => intro store h; exact h
  | cons c cs ih =>
    intro store h
    exact ih _ (applySave_preserves checksum store c h)

/-- Two consecutive upserts for the same key: the second updates the
row in place, and afterwards the unique row for the key carries the
second call's values. -/
theorem saveAbi_twice (checksum : Checksum) (store : Store) (a : String)
    (net : Option String) (abi1 abi2 : Abi) (src1 src2 : String)
    (t1 t2 : Nat) (s1 s2 : Store) (r1 r2 : CacheRec)
    (hinv : AtMostOnePerKey store)
    (h1 : saveAbi checksum store a abi1 net src1 t1 = .ok (s1, r1))
    (h2 : saveAbi checksum s1 a abi2 net src2 t2 = .ok (s2, r2)) :
    AtMostOnePerKey s2 ∧
    s2.filter (keyMatches r2.address r2.network) = [r2] ∧
    r2.abi = abi2 ∧ r2.source = src2 ∧ r2.updated_at = t2 ∧
    s2.length = s1.length := by
  have hinv1 : AtMostOnePerKey s1 :=
    saveAbi_preserves_atMostOne checksum store a abi1 net src1 t1 s1 r1 hinv h1
  have hinv2 : AtMostOnePerKey s2 :=
    saveAbi_preserves_atMostOne checksum s1 a abi2 net src2 t2 s2 r2 hinv1 h2
  obtain ⟨ca1, hc1, haddr1, hnet1, -, -, -⟩ :=
    saveAbi_ok_row checksum store a abi1 net src1 t1 s1 r1 h1
  obtain ⟨ca2, hc2, -, -, habi2, hsrc2, hupd2⟩ :=
    saveAbi_ok_row checksum s1 a abi2 net src2 t2 s2 r2 h2
  have hca : ca1 = ca2 := by
    rw [hc1] at hc2; exact Option.some_injective _ hc2
  have hfilter1 : s1.filter (keyMatches r1.address r1.network) = [r1] :=
    saveAbi_filter_eq checksum store a abi1 net src1 t1 s1 r1 hinv h1
  have hexist : s1.filter (keyMatches (strLower ca2) (normNet net)) ≠ [] := by
    rw [← hca, ← haddr1, ← hnet1, hfilter1]
    simp
  have hlen : s2.length = s1.length :=
    saveAbi_update_length checksum s1 a abi2 net src2 t2 s2 r2 ca2 hc2 hexist h2
  exact ⟨hinv2,
    saveAbi_filter_eq checksum s1 a abi2 net src2 t2 s2 r2 hinv1 h2,
    habi2, hsrc2, hupd2, hlen⟩

/-- Inversion of a successful force-refresh resolution: it is exactly
an Etherscan fetch followed by a `save_abi` with source `"etherscan"`. -/
theorem resolveAbi_force_inv (env : ResolveEnv) (store : Store) (addr : String)
    (net : String) (fresh abi' : Abi) (s1 : Store)
    (hf : env.fetchRes = .ok fresh)
    (h : resolveAbi env store addr
        { network := net, force_refresh := true } = .ok (abi', s1)) :
    ∃ row, saveAbi env.checksum store addr fresh (some net) "etherscan" env.now
        = .ok (s1, row) ∧ abi' = row.abi := by
  unfold resolveAbi at h
  rw [hf] at h
  dsimp only at h
  cases hs : saveAbi env.checksum store addr fresh (some net) "etherscan" env.now with
  | error e => rw [hs] at h; simp at h
  | ok pr =>
    cases pr with
    | mk st2 row =>
      rw [hs] at h
      simp at h
      exact ⟨row, by rw [h.2], h.1.symm⟩

/-! ## Lemmas about feature extraction and `run_audit` -/

theorem extractFeatures_ok (checksum : Checksum) (env : ChainEnv)
    (addr : String) (abi : Abi) (ca : String) (n : Nat)
    (hca : checksum addr = some ca) (hcode : env.get_code = .ok n) :
    extractFeatures checksum env addr abi = .ok (buildFeatures env.meta n abi) := by
  simp [extractFeatures, hca, hcode]

/-- When the body of the `try` block succeeds, `run_audit` performs the
success writes: both rows move to `done` with all result fields set. -/
theorem runAudit_done (env : RunEnv) (store : Store) (job_id : Nat)
    (addr net : String) (fr : PyVal) (abi : Abi) (feats : Features)
    (ia : ScoreOut) (st2 : Store)
    (hjob : env.jobExists = true)
    (hbody : runAuditBody env store addr net fr = .ok (abi, feats, ia, st2)) :
    runAudit env store job_id addr net fr =
      { audit := some
          { address := strLower addr, network := net, status := "done",
            started_at := env.now1, finished_at := some env.now2,
            ai_score := some ia.risk_score,
            risk_level := some (levelFromScore ia.risk_score),
            summary := some
              { address := addr, network := net, name := feats.name,
                symbol := feats.symbol, decimals := feats.decimals,
                code_len := feats.code_len,
                total_functions := feats.total_functions },
            features := some feats, details := some (.iaRaw ia) },
        job := some
          { status := "done",
            result := some (.ok env.audit_id ia.risk_score
              (levelFromScore ia.risk_score)) },
        store := st2,
        outcome := .ok (.finished env.audit_id ia.risk_score
          (levelFromScore ia.risk_score)) } := by
  unfold runAudit
  rw [hjob, hbody]
  simp

/-- When any step of the `try` block raises, `run_audit` marks both
rows `error`, stores the error text in the job's `result` (and only
there), and re-raises. -/
theorem runAudit_error (env : RunEnv) (store : Store) (job_id : Nat)
    (addr net : String) (fr : PyVal) (e : String) (st2 : Store)
    (hjob : env.jobExists = true)
    (hbody : runAuditBody env store addr net fr = .error (e, st2)) :
    runAudit env store job_id addr net fr =
      { audit := some
          { address := strLower addr, network := net, status := "error",
            started_at := env.now1, finished_at := some env.now2 },
        job := some { status := "error", result := some (.err e) },
        store := st2,
        outcome := .error e } := by
  unfold runAudit
  rw [hjob, hbody]
  simp

/-- Non-refresh resolution against a populated cache: the body succeeds
with the cached ABI and leaves the store untouched. -/
theorem runAuditBody_cacheHit (env : RunEnv) (store : Store)
    (addr net : String) (fr : PyVal) (ca : String) (row : CacheRec)
    (n : Nat) (ia : ScoreOut)
    (hw3 : env.w3 = .ok ())
    (hfr : asBool fr = false)
    (hca : env.checksum addr = some ca)
    (hfind : store.find? (keyMatches (strLower ca) (normNet (some net))) = some row)
    (hne : row.abi ≠ [])
    (hcode : env.chain.get_code = .ok n)
    (hscore : env.scoreRes = .ok ia) :
    runAuditBody env store addr net fr =
      .ok (row.abi, buildFeatures env.chain.meta n row.abi, ia, store) := by
  unfold runAuditBody
  rw [hw3, hfr]
  simp [getAbiForAddress, getCachedRecord, hca, hfind, hne,
    extractFeatures_ok env.checksum env.chain addr row.abi ca n hca hcode,
    hscore]

/-- Forced refresh: the body fetches, persists with source
`"etherscan"`, and proceeds with the fresh ABI. -/
theorem runAuditBody_refresh (env : RunEnv) (store : Store)
    (addr net : String) (fr : PyVal) (ca : String) (fresh : Abi)
    (s2 : Store) (row : CacheRec) (n : Nat) (ia : ScoreOut)
    (hw3 : env.w3 = .ok ())
    (hfr : asBool fr = true)
    (hfetch : env.fetchRes = .ok fresh)
    (hsave : saveAbi env.checksum store addr fresh (some net) "etherscan" env.now1
      = .ok (s2, row))
    (hne : fresh ≠ [])
    (hca : env.checksum addr = some ca)
    (hcode : env.chain.get_code = .ok n)
    (hscore : env.scoreRes = .ok ia) :
    runAuditBody env store addr net fr =
      .ok (fresh, buildFeatures env.chain.meta n fresh, ia, s2) := by
  unfold runAuditBody
  rw [hw3, hfr]
  simp [hfetch, hsave, hne,
    extractFeatures_ok env.checksum env.chain addr fresh ca n hca hcode,
    hscore]

/-! ## Small counting helpers -/

theorem length_filter_add_length_filter_not {α : Type} (p : α → Bool)
    (l : List α) :
    (l.filter p).length + (l.filter (fun x => !p x)).length = l.length := by
  induction l with
  | nil => rfl
  | cons a l ih =>
    by_cases hp : p a <;> simp [List.filter_cons, hp] <;> omega

theorem sum_ite_one_eq_count_true (l : List Bool) :
    (l.map (fun v => if v then (1 : Nat) else 0)).sum = l.count true := by
  induction l with
  | nil => rfl
  | cons b l ih =>
    cases b with
    | false => simp [List.count_cons, ih]
    | true => simp [List.count_cons, ih, Nat.add_comm]

theorem ite_zero_one_eq_max (n : Nat) :
    (if n = 0 then 1 else n) = max n 1 := by
  cases n with
  | zero => simp
  | succ k => simp [Nat.succ_ne_zero]

/-! ## Claim theorems -/

/-- C6: for every interface definition, the extracted feature vector
sets `total_functions` to the number of `"function"`-typed descriptors,
partitions them into view (declared `view`/`pure`) and write buckets so
that `view_functions + write_functions = total_functions`, sets
`write_ratio = write_functions / max(total_functions, 1)`, and sets
`risky_flags` to the number of true flags among the eight
name-presence flags. -/
theorem c6_feature_vector (checksum : Checksum) (env : ChainEnv)
    (addr : String) (abi : Abi) (feats : Features)
    (h : extractFeatures checksum env addr abi = .ok feats) :
    feats.total_functions = (functionItems abi).length ∧
    feats.view_functions = ((functionItems abi).filter isViewMutability).length ∧
    feats.write_functions =
      ((functionItems abi).filter (fun it => !isViewMutability it)).length ∧
    feats.view_functions + feats.write_functions = feats.total_functions ∧
    feats.write_ratio =
      (feats.write_functions : ℚ) / ((max feats.total_functions 1 : Nat) : ℚ) ∧
    feats.flags = mkFlags (fnNames abi) ∧
    feats.risky_flags = (mkFlags (fnNames abi)).values.count true := by
  cases hc : checksum addr with
  | none => simp [extractFeatures, hc] at h
  | some ca =>
    cases hg : env.get_code with
    | error e => simp [extractFeatures, hc, hg] at h
    | ok n =>
      rw [extractFeatures_ok checksum env addr abi ca n hc hg] at h
      have hf : feats = buildFeatures env.meta n abi := by
        simpa using h.symm
      subst hf
      refine ⟨by simp [buildFeatures, fnNames], by simp [buildFeatures, viewFns],
        by simp [buildFeatures, writeFns], ?_, ?_, rfl, ?_⟩
      · simp only [buildFeatures, viewFns, writeFns, List.length_map]
        exact length_filter_add_length_filter_not isViewMutability
          (functionItems abi) |>.trans (by simp [fnNames])
      · simp only [buildFeatures, fnNames, List.length_map]
        rw [ite_zero_one_eq_max]
      · simp only [buildFeatures, RiskFlags.trueCount]
        exact sum_ite_one_eq_count_true (mkFlags (fnNames abi)).values

/-- C6 witness: the feature vector of `abiFixA` (two functions, one
view, one write). -/
theorem c6_feature_vector_witness :
    ∃ feats, extractFeatures cksFix chainFix "0xAB" abiFixA = .ok feats ∧
      feats.total_functions = (functionItems abiFixA).length := by
  refine ⟨buildFeatures chainFix.meta 120 abiFixA, rfl, ?_⟩
  exact (c6_feature_vector cksFix chainFix "0xAB" abiFixA
    (buildFeatures chainFix.meta 120 abiFixA) rfl).1

/-- C7: `_level_from_score` maps a score to `high` iff it is at least
0.70, to `medium` iff it lies in [0.55, 0.70), and to `low` iff it is
below 0.55; the boundary scores 0.70, 0.6999, 0.55 and 0.5499 land on
`high`, `medium`, `medium` and `low` respectively.  The thresholds are
fixed constants: the function takes no input besides the score. -/
theorem c7_level_thresholds :
    (∀ s : ℚ, (levelFromScore s = "high" ↔ 7/10 ≤ s) ∧
      (levelFromScore s = "medium" ↔ 55/100 ≤ s ∧ s < 7/10) ∧
      (levelFromScore s = "low" ↔ s < 55/100)) ∧
    levelFromScore (70/100) = "high" ∧
    levelFromScore (6999/10000) = "medium" ∧
    levelFromScore (55/100) = "medium" ∧
    levelFromScore (5499/10000) = "low" := by
  refine ⟨fun s => ?_, by norm_num [levelFromScore],
    by norm_num [levelFromScore], by norm_num [levelFromScore],
    by norm_num [levelFromScore]⟩
  unfold levelFromScore
  split_ifs with h1 h2
  · exact ⟨iff_of_true rfl h1,
      iff_of_false (by decide) (fun c => absurd h1 (not_le.mpr c.2)),
      iff_of_false (by decide) (fun c => absurd h1 (not_le.mpr (by linarith)))⟩
  · exact ⟨iff_of_false (by decide) h1,
      iff_of_true rfl ⟨h2, not_le.mp h1⟩,
      iff_of_false (by decide) (not_lt.mpr h2)⟩
  · exact ⟨iff_of_false (by decide) h1,
      iff_of_false (by decide) (fun c => h2 c.1),
      iff_of_true rfl (not_le.mp h2)⟩

/-- C9: a `"function"`-typed descriptor whose `stateMutability` is
absent, empty, or anything other than exactly `"view"` or `"pure"` is
classified into the write bucket; only those two exact strings land in
the view bucket. -/
theorem c9_write_bucket (abi : Abi) (it : AbiItem)
    (hmem : it ∈ abi) (hty : it.type = "function") :
    ((it.stateMutability.getD "" ≠ "view" ∧ it.stateMutability.getD "" ≠ "pure") →
      it ∈ (functionItems abi).filter (fun x => !isViewMutability x) ∧
      it.name ∈ writeFns abi ∧
      it ∉ (functionItems abi).filter isViewMutability) ∧
    ((it.stateMutability.getD "" = "view" ∨ it.stateMutability.getD "" = "pure") →
      it ∈ (functionItems abi).filter isViewMutability ∧
      it.name ∈ viewFns abi) := by
  have hfi : it ∈ functionItems abi := by
    simp [functionItems, List.mem_filter, hmem, hty]
  constructor
  · rintro ⟨hv, hp⟩
    have hm : isViewMutability it = false := by
      simp [isViewMutability, hv, hp]
    have hwf : it ∈ (functionItems abi).filter (fun x => !isViewMutability x) :=
      List.mem_filter.mpr ⟨hfi, by simp [hm]⟩
    refine ⟨hwf, ?_, ?_⟩
    · exact List.mem_map.mpr ⟨it, hwf, rfl⟩
    · intro hc
      have := (List.mem_filter.mp hc).2
      rw [hm] at this
      exact absurd this (by simp)
  · intro hv
    have hm : isViewMutability it = true := by
      rcases hv with hv | hv <;> simp [isViewMutability, hv]
    have hvf : it ∈ (functionItems abi).filter isViewMutability :=
      List.mem_filter.mpr ⟨hfi, hm⟩
    exact ⟨hvf, List.mem_map.mpr ⟨it, hvf, rfl⟩⟩

/-- C9 witness: the `mint` descriptor of `abiFixB` has no
`stateMutability` key and lands in the write bucket; the `name`
descriptor of `abiFixA` declares `view` and lands in the view bucket. -/
theorem c9_write_bucket_witness :
    ({ type := "function", name := some "mint" } : AbiItem) ∈
      (functionItems abiFixB).filter (fun x => !isViewMutability x) ∧
    some "mint" ∈ writeFns abiFixB := by
  have h := (c9_write_bucket abiFixB { type := "function", name := some "mint" }
    (by simp [abiFixB]) rfl).1 (by simp)
  exact ⟨h.1, h.2.1⟩

/-- C3: the cache store holds at most one row per `(address, network)`
pair after any sequence of `save_abi` upserts from an empty store; a
second upsert for the same key updates the existing row in place (the
store does not grow) and leaves the unique row carrying the latest
interface definition, provenance and `updated_at`; and two consecutive
force-refresh resolutions behave the same way through the resolver. -/
theorem c3_cache_upsert_unique :
    (∀ (checksum : Checksum) (cs : List SaveCall),
      AtMostOnePerKey (applySaves checksum [] cs)) ∧
    (∀ (checksum : Checksum) (store : Store) (a : String) (net : Option String)
        (abi1 abi2 : Abi) (src1 src2 : String) (t1 t2 : Nat)
        (s1 s2 : Store) (r1 r2 : CacheRec),
      AtMostOnePerKey store →
      saveAbi checksum store a abi1 net src1 t1 = .ok (s1, r1) →
      saveAbi checksum s1 a abi2 net src2 t2 = .ok (s2, r2) →
      AtMostOnePerKey s2 ∧
      s2.filter (keyMatches r2.address r2.network) = [r2] ∧
      r2.abi = abi2 ∧ r2.source = src2 ∧ r2.updated_at = t2 ∧
      s2.length = s1.length) ∧
    (∀ (env1 env2 : ResolveEnv) (store : Store) (addr net : String)
        (fresh1 fresh2 abi1 abi2 : Abi) (s1 s2 : Store),
      AtMostOnePerKey store →
      env2.checksum = env1.checksum →
      env1.fetchRes = .ok fresh1 →
      env2.fetchRes = .ok fresh2 →
      resolveAbi env1 store addr { network := net, force_refresh := true }
        = .ok (abi1, s1) →
      resolveAbi env2 s1 addr { network := net, force_refresh := true }
        = .ok (abi2, s2) →
      AtMostOnePerKey s2 ∧
      ∃ r2, s2.filter (keyMatches r2.address r2.network) = [r2] ∧
        r2.abi = fresh2 ∧ r2.source = "etherscan" ∧
        r2.updated_at = env2.now ∧ s2.length = s1.length) := by
  refine ⟨?_, ?_, ?_⟩
  · intro checksum cs
    exact applySaves_preserves checksum cs [] atMostOne_nil
  · intro checksum store a net abi1 abi2 src1 src2 t1 t2 s1 s2 r1 r2 hinv h1 h2
    exact saveAbi_twice checksum store a net abi1 abi2 src1 src2 t1 t2
      s1 s2 r1 r2 hinv h1 h2
  · intro env1 env2 store addr net fresh1 fresh2 abi1 abi2 s1 s2
      hinv hck hf1 hf2 hr1 hr2
    obtain ⟨row1, hs1, -⟩ :=
      resolveAbi_force_inv env1 store addr net fresh1 abi1 s1 hf1 hr1
    obtain ⟨row2, hs2, -⟩ :=
      resolveAbi_force_inv env2 s1 addr net fresh2 abi2 s2 hf2 hr2
    rw [hck] at hs2
    have h := saveAbi_twice env1.checksum store addr (some net) fresh1 fresh2
      "etherscan" "etherscan" env1.now env2.now s1 s2 row1 row2 hinv hs1 hs2
    exact ⟨h.1, row2, h.2.1, h.2.2.1, h.2.2.2.1, h.2.2.2.2.1, h.2.2.2.2.2⟩

/-- C3 witness: two concrete upserts for `("0xAB", "sepolia")` leave a
single row holding the second call's values, without growing the
store. -/
theorem c3_cache_upsert_unique_witness :
    AtMostOnePerKey [rowFixB] ∧
    ([rowFixB] : Store).filter (keyMatches rowFixB.address rowFixB.network)
      = [rowFixB] ∧
    rowFixB.abi = abiFixB ∧ rowFixB.source = "etherscan" ∧
    rowFixB.updated_at = 9 ∧
    ([rowFixB] : Store).length = ([rowFixA] : Store).length := by
  have h := c3_cache_upsert_unique.2.1 cksFix [] "0xAB" (some "sepolia")
    abiFixA abiFixB "manual" "etherscan" 5 9 [rowFixA] [rowFixB]
    rowFixA rowFixB atMostOne_nil (by rfl) (by rfl)
  exact ⟨h.1, h.2.1, h.2.2.1, h.2.2.2.1, h.2.2.2.2.1, h.2.2.2.2.2⟩

/-- C5: every `run_audit` execution that created an Audit row leaves it
with a final status in `{done, error}`, `finished_at` set exactly for
those terminal statuses, and `ai_score` present iff `risk_level` is
present — both set on `done`, both absent on `error`. -/
theorem c5_terminal_invariant (env : RunEnv) (store : Store) (job_id : Nat)
    (addr net : String) (fr : PyVal) (a : AuditRec)
    (ha : (runAudit env store job_id addr net fr).audit = some a) :
    (a.status = "done" ∨ a.status = "error") ∧
    (a.finished_at.isSome ↔ (a.status = "done" ∨ a.status = "error")) ∧
    (a.ai_score.isSome ↔ a.risk_level.isSome) ∧
    (a.status = "done" → a.ai_score.isSome ∧ a.risk_level.isSome) ∧
    (a.status = "error" → a.ai_score = none ∧ a.risk_level = none) := by
  by_cases hjob : env.jobExists
  · cases hb : runAuditBody env store addr net fr with
    | ok t =>
      obtain ⟨abi, feats, ia, st2⟩ := t
      rw [runAudit_done env store job_id addr net fr abi feats ia st2
        (by simpa using hjob) hb] at ha
      simp only [Option.some.injEq] at ha
      subst ha
      refine ⟨Or.inl rfl, by simp, by simp, fun _ => by simp, fun hc => ?_⟩
      have hcs : ("done" : String) = "error" := hc
      exact absurd hcs (by decide)
    | error t =>
      obtain ⟨e, st2⟩ := t
      rw [runAudit_error env store job_id addr net fr e st2
        (by simpa using hjob) hb] at ha
      simp only [Option.some.injEq] at ha
      subst ha
      refine ⟨Or.inr rfl, by simp, by simp, fun hc => ?_, fun _ => by simp⟩
      have hcs : ("error" : String) = "done" := hc
      exact absurd hcs (by decide)
  · unfold runAudit at ha
    simp [hjob] at ha

/-- C5 witness: a concrete successful execution. -/
theorem c5_terminal_invariant_witness :
    ∃ a, (runAudit runEnvOk [rowFixA] 1 "0xAB" "sepolia" (.pybool false)).audit
        = some a ∧
      (a.status = "done" ∨ a.status = "error") := by
  have hb := runAuditBody_cacheHit runEnvOk [rowFixA] "0xAB" "sepolia"
    (.pybool false) "0xAB" rowFixA 120 { risk_score := 3/4, raw := 1/2 }
    rfl rfl rfl rfl (by simp [rowFixA, saveRow, abiFixA]) rfl rfl
  have hd := runAudit_done runEnvOk [rowFixA] 1 "0xAB" "sepolia" (.pybool false)
    rowFixA.abi (buildFeatures runEnvOk.chain.meta 120 rowFixA.abi)
    { risk_score := 3/4, raw := 1/2 } [rowFixA] rfl hb
  exact ⟨_, by rw [hd],
    (c5_terminal_invariant runEnvOk [rowFixA] 1 "0xAB" "sepolia"
      (.pybool false) _ (by rw [hd])).1⟩

/-- C2 counterexample: in a concrete failing execution (Etherscan fetch
raises), the exception is re-raised and recorded on the Job's `result`,
but the Audit's `details` stays `None` — the error text is *not*
captured there, contradicting the claim. -/
theorem c2_error_details_counterexample :
    (runAudit runEnvErr [] 1 "0xAB" "sepolia" (.pybool false)).outcome
      = .error "Etherscan error: NOTOK" ∧
    (runAudit runEnvErr [] 1 "0xAB" "sepolia" (.pybool false)).audit.map
      AuditRec.details = some none ∧
    (runAudit runEnvErr [] 1 "0xAB" "sepolia" (.pybool false)).job
      = some { status := "error",
               result := some (.err "Etherscan error: NOTOK") } :=
  ⟨rfl, rfl, rfl⟩

/-- C2 (amended): when any step after the Audit row is created raises,
both rows end in status `error`, the Audit's `finished_at` is set, the
error text is captured on the Job's `result` — the Audit's `details` is
left unset — and the exception is re-raised to the task-queue layer. -/
theorem c2_error_path (env : RunEnv) (store : Store) (job_id : Nat)
    (addr net : String) (fr : PyVal) (e : String) (st2 : Store)
    (hjob : env.jobExists = true)
    (hbody : runAuditBody env store addr net fr = .error (e, st2)) :
    (runAudit env store job_id addr net fr).outcome = .error e ∧
    (runAudit env store job_id addr net fr).audit = some
      { address := strLower addr, network := net, status := "error",
        started_at := env.now1, finished_at := some env.now2 } ∧
    (runAudit env store job_id addr net fr).job = some
      { status := "error", result := some (.err e) } ∧
    ((runAudit env store job_id addr net fr).audit.map AuditRec.details)
      = some none := by
  rw [runAudit_error env store job_id addr net fr e st2 hjob hbody]
  exact ⟨rfl, rfl, rfl, rfl⟩

/-- C2 witness: the amended claim at a concrete failing refresh. -/
theorem c2_error_path_witness :
    (runAudit runEnvErr [] 1 "0xAB" "sepolia" (.pybool true)).job
      = some { status := "error",
               result := some (.err "Etherscan error: NOTOK") } :=
  (c2_error_path runEnvErr [] 1 "0xAB" "sepolia" (.pybool true)
    "Etherscan error: NOTOK" [] rfl (by rfl)).2.2.1

/-- C8: feature extraction is best-effort per metadata call: for any
on-chain environment — any subset of the four metadata calls may fail —
the audit still completes as `done`, the structural features are
produced, and each metadata key appears in the features exactly when
its own call succeeded. -/
theorem c8_metadata_best_effort (env : RunEnv) (store : Store)
    (job_id : Nat) (addr net : String) (fr : PyVal) (ca : String)
    (row : CacheRec) (n : Nat) (ia : ScoreOut)
    (hjob : env.jobExists = true)
    (hw3 : env.w3 = .ok ())
    (hfr : asBool fr = false)
    (hca : env.checksum addr = some ca)
    (hfind : store.find? (keyMatches (strLower ca) (normNet (some net)))
      = some row)
    (hne : row.abi ≠ [])
    (hcode : env.chain.get_code = .ok n)
    (hscore : env.scoreRes = .ok ia) :
    extractFeatures env.checksum env.chain addr row.abi
      = .ok (buildFeatures env.chain.meta n row.abi) ∧
    (runAudit env store job_id addr net fr).outcome
      = .ok (.finished env.audit_id ia.risk_score
          (levelFromScore ia.risk_score)) ∧
    ∃ a, (runAudit env store job_id addr net fr).audit = some a ∧
      a.status = "done" ∧
      a.features = some (buildFeatures env.chain.meta n row.abi) ∧
      (buildFeatures env.chain.meta n row.abi).name = env.chain.meta "name" ∧
      (buildFeatures env.chain.meta n row.abi).symbol
        = env.chain.meta "symbol" ∧
      (buildFeatures env.chain.meta n row.abi).decimals
        = env.chain.meta "decimals" ∧
      (buildFeatures env.chain.meta n row.abi).totalSupply
        = env.chain.meta "totalSupply" ∧
      (buildFeatures env.chain.meta n row.abi).total_functions
        = (fnNames row.abi).length ∧
      (buildFeatures env.chain.meta n row.abi).code_len = n := by
  have hb := runAuditBody_cacheHit env store addr net fr ca row n ia
    hw3 hfr hca hfind hne hcode hscore
  have hd := runAudit_done env store job_id addr net fr row.abi
    (buildFeatures env.chain.meta n row.abi) ia store hjob hb
  rw [hd]
  exact ⟨extractFeatures_ok env.checksum env.chain addr row.abi ca n hca hcode,
    rfl, _, rfl, rfl, rfl, rfl, rfl, rfl, rfl, rfl, rfl⟩

/-- C8 witness: the `name` call succeeds and the `symbol` call fails;
the audit completes `done`, the features include `name` and omit
`symbol`. -/
theorem c8_metadata_best_effort_witness :
    ∃ a, (runAudit runEnvOk [rowFixA] 1 "0xAB" "sepolia" (.pystr "no")).audit
        = some a ∧
      a.status = "done" ∧
      a.features = some (buildFeatures runEnvOk.chain.meta 120 rowFixA.abi) ∧
      (buildFeatures runEnvOk.chain.meta 120 rowFixA.abi).name = some "Tok" ∧
      (buildFeatures runEnvOk.chain.meta 120 rowFixA.abi).symbol = none := by
  have h := c8_metadata_best_effort runEnvOk [rowFixA] 1 "0xAB" "sepolia"
    (.pystr "no") "0xAB" rowFixA 120 { risk_score := 3/4, raw := 1/2 }
    rfl rfl rfl rfl rfl (by simp [rowFixA, saveRow, abiFixA]) rfl rfl
  obtain ⟨-, -, a, ha, hst, hfeat, hname, hsym, -⟩ := h
  exact ⟨a, ha, hst, hfeat, by rw [hname]; rfl, by rw [hsym]; rfl⟩

/-- On a valid address `save_abi` always succeeds. -/
theorem saveAbi_isOk (checksum : Checksum) (store : Store) (a : String)
    (abi : Abi) (net : Option String) (src : String) (now : Nat) (ca : String)
    (hc : checksum a = some ca) :
    ∃ s2 row, saveAbi checksum store a abi net src now = .ok (s2, row) := by
  rw [saveAbi_eq checksum store a abi net src now ca hc]
  cases hu : updateFirst (keyMatches (strLower ca) (normNet net))
      (fun r => { r with abi := abi, source := src, updated_at := now }) store with
  | mk fst snd => cases snd <;> exact ⟨_, _, rfl⟩

/-- C10: `run_audit` decides whether to force a fresh registry fetch by
string-coercing `force_refresh`: the refresh happens iff the lowercased
`str()` form of the value is one of `"1"`, `"true"`, `"yes"`, `"on"`.
The boolean `True` triggers a refresh; truthy values with other string
forms (the string `"False"`, the integer 2) do not, even against a
populated cache. -/
theorem c10_force_refresh_coercion (env : RunEnv) (store : Store)
    (job_id : Nat) (addr net : String) (ca : String) (row : CacheRec)
    (fresh : Abi) (n : Nat) (ia : ScoreOut)
    (hjob : env.jobExists = true)
    (hw3 : env.w3 = .ok ())
    (hca : env.checksum addr = some ca)
    (hfind : store.find? (keyMatches (strLower ca) (normNet (some net)))
      = some row)
    (hneA : row.abi ≠ [])
    (hfetch : env.fetchRes = .ok fresh)
    (hneB : fresh ≠ [])
    (hcode : env.chain.get_code = .ok n)
    (hscore : env.scoreRes = .ok ia) :
    (∀ v, asBool v = true ↔
      strLower (pyStr v) ∈ (["1", "true", "yes", "on"] : List String)) ∧
    asBool (.pybool true) = true ∧
    asBool (.pystr "False") = false ∧
    asBool (.pyint 2) = false ∧
    (∀ v, asBool v = true →
      ∃ s2 row2,
        saveAbi env.checksum store addr fresh (some net) "etherscan" env.now1
          = .ok (s2, row2) ∧
        (runAudit env store job_id addr net v).store = s2 ∧
        (runAudit env store job_id addr net v).audit.map AuditRec.features
          = some (some (buildFeatures env.chain.meta n fresh))) ∧
    (∀ v, asBool v = false →
      (runAudit env store job_id addr net v).store = store ∧
      (runAudit env store job_id addr net v).audit.map AuditRec.features
        = some (some (buildFeatures env.chain.meta n row.abi))) := by
  refine ⟨fun v => ?_, rfl, rfl, rfl, fun v hv => ?_, fun v hv => ?_⟩
  · simp [asBool]
  · obtain ⟨s2, row2, hs⟩ :=
      saveAbi_isOk env.checksum store addr fresh (some net) "etherscan"
        env.now1 ca hca
    have hb := runAuditBody_refresh env store addr net v ca fresh s2 row2 n ia
      hw3 hv hfetch hs hneB hca hcode hscore
    have hd := runAudit_done env store job_id addr net v fresh
      (buildFeatures env.chain.meta n fresh) ia s2 hjob hb
    rw [hd]
    exact ⟨s2, row2, hs, rfl, rfl⟩
  · have hb := runAuditBody_cacheHit env store addr net v ca row n ia
      hw3 hv hca hfind hneA hcode hscore
    have hd := runAudit_done env store job_id addr net v row.abi
      (buildFeatures env.chain.meta n row.abi) ia store hjob hb
    rw [hd]
    exact ⟨rfl, rfl⟩

/-- C10 witness: against a populated cache, the integer 2 leaves the
store untouched while `True` persists the fetched ABI. -/
theorem c10_force_refresh_coercion_witness :
    asBool (.pybool true) = true ∧ asBool (.pyint 2) = false ∧
    (runAudit runEnvOk [rowFixA] 1 "0xAB" "sepolia" (.pyint 2)).store
      = [rowFixA] ∧
    (runAudit runEnvOk [rowFixA] 1 "0xAB" "sepolia" (.pybool true)).store
      = [rowFixC] := by
  have h := c10_force_refresh_coercion runEnvOk [rowFixA] 1 "0xAB" "sepolia"
    "0xAB" rowFixA abiFixB 120 { risk_score := 3/4, raw := 1/2 }
    rfl rfl rfl rfl (by simp [rowFixA, saveRow, abiFixA]) rfl
    (by simp [abiFixB]) rfl rfl
  refine ⟨h.2.1, h.2.2.2.1, (h.2.2.2.2.2 (.pyint 2) rfl).1, ?_⟩
  obtain ⟨s2, row2, hs, hstore, -⟩ := h.2.2.2.2.1 (.pybool true) rfl
  have heval : saveAbi runEnvOk.checksum [rowFixA] "0xAB" abiFixB
      (some "sepolia") "etherscan" runEnvOk.now1
      = .ok ([rowFixC], rowFixC) := rfl
  rw [heval] at hs
  injection hs with hpair
  injection hpair with h1 h2
  rw [hstore]
  exact h1.symm

/-- C1 counterexample: with `filePath` supplied but the file missing,
and a populated cache for the address, the code raises
`FileNotFoundError` — whereas the claimed chain, in which a supplied
but missing `filePath` simply produces nothing, would fall through and
return the cache entry (source 4). -/
theorem c1_resolution_order_counterexample :
    resolveAbi renvFix [rowFixA] "0xAB" { abi_path := some "f.json" }
      = .error (.fileNotFound "f.json") ∧
    resolveSpecChain renvFix [rowFixA] "0xAB" { abi_path := some "f.json" }
      = .ok (rowFixA.abi, [rowFixA]) := ⟨rfl, rfl⟩

/-- C1 (amended): `_resolve_abi` tries, in order: (1) the inline
definition (also when the cache is populated — inline always wins); (2)
the `filePath` resource, returning its parsed content when the file
exists and failing immediately with `FileNotFoundError` when it does
not, rather than falling through; (3) a remote-registry fetch persisted
with provenance `"etherscan"` when `forceRefresh` is set; (4) the cache
entry as-is; (5) a final remote-registry fetch persisted with
provenance `"etherscan"`, accepted when the stored definition is
non-empty; (6) when that final fetch stores an empty definition, the
`CONTRACT_ABI_PATH` environment file; and only then it fails with the
unresolved error. -/
theorem c1_resolution_order (env : ResolveEnv) (store : Store)
    (addr : String) (opts : ResolveOpts) :
    (∀ abi, opts.abi_inline = some abi → opts.cache_manual = false →
      resolveAbi env store addr opts = .ok (abi, store)) ∧
    (∀ abi s2 row, opts.abi_inline = some abi → opts.cache_manual = true →
      saveAbi env.checksum store addr abi (some opts.network) "manual" env.now
        = .ok (s2, row) →
      resolveAbi env store addr opts = .ok (abi, s2)) ∧
    (∀ p abi, opts.abi_inline = none → opts.abi_path = some p →
      env.files p = some abi →
      resolveAbi env store addr opts = .ok (abi, store)) ∧
    (∀ p, opts.abi_inline = none → opts.abi_path = some p →
      env.files p = none →
      resolveAbi env store addr opts = .error (.fileNotFound p)) ∧
    (∀ fresh s2 row, opts.abi_inline = none → opts.abi_path = none →
      opts.force_refresh = true → env.fetchRes = .ok fresh →
      saveAbi env.checksum store addr fresh (some opts.network) "etherscan"
        env.now = .ok (s2, row) →
      resolveAbi env store addr opts = .ok (row.abi, s2)) ∧
    (∀ ca row, opts.abi_inline = none → opts.abi_path = none →
      opts.force_refresh = false → env.checksum addr = some ca →
      store.find? (keyMatches (strLower ca) (normNet (some opts.network)))
        = some row →
      resolveAbi env store addr opts = .ok (row.abi, store)) ∧
    (∀ ca fresh s2 row, opts.abi_inline = none → opts.abi_path = none →
      opts.force_refresh = false → env.checksum addr = some ca →
      store.find? (keyMatches (strLower ca) (normNet (some opts.network)))
        = none →
      env.fetchRes = .ok fresh →
      saveAbi env.checksum store addr fresh (some opts.network) "etherscan"
        env.now = .ok (s2, row) →
      (row.abi ≠ [] →
        resolveAbi env store addr opts = .ok (row.abi, s2)) ∧
      (row.abi = [] →
        resolveAbi env store addr opts =
          match env.env_abi_path.bind env.files with
          | some abi2 => .ok (abi2, s2)
          | none => .error .unresolved)) := by
  refine ⟨?_, ?_, ?_, ?_, ?_, ?_, ?_⟩
  · intro abi h1 h2
    simp [resolveAbi, h1, h2]
  · intro abi s2 row h1 h2 hs
    simp [resolveAbi, h1, h2, hs]
  · intro p abi h1 h2 h3
    simp [resolveAbi, h1, h2, h3]
  · intro p h1 h2 h3
    simp [resolveAbi, h1, h2, h3]
  · intro fresh s2 row h1 h2 h3 h4 h5
    simp [resolveAbi, h1, h2, h3, h4, h5]
  · intro ca row h1 h2 h3 h4 h5
    simp [resolveAbi, getCachedRecord, h1, h2, h3, h4, h5]
  · intro ca fresh s2 row h1 h2 h3 h4 h5 h6 h7
    constructor
    · intro hne
      simp [resolveAbi, getCachedRecord, h1, h2, h3, h4, h5, h6, h7, hne]
    · intro hempty
      rcases henv : env.env_abi_path with - | p
      · simp [resolveAbi, getCachedRecord, h1, h2, h3, h4, h5, h6, h7,
          hempty, henv]
      · rcases hf : env.files p with - | abi2 <;>
          simp [resolveAbi, getCachedRecord, h1, h2, h3, h4, h5, h6, h7,
            hempty, henv, hf]

/-- C1 witness: with no options and a populated cache, the cache entry
is returned as-is and the store is untouched. -/
theorem c1_resolution_order_witness :
    resolveAbi renvFix [rowFixA] "0xAB" {} = .ok (rowFixA.abi, [rowFixA]) :=
  ((c1_resolution_order renvFix [rowFixA] "0xAB" {}).2.2.2.2.2.1)
    "0xAB" rowFixA rfl rfl rfl rfl rfl

/-- C4 counterexample: resolving from `filePath` with `cacheManual` set
persists nothing — the store comes back empty, with no `"manual"`
record for the address. -/
theorem c4_cache_manual_counterexample :
    resolveAbi renvFix [] "0xAB"
      { abi_path := some "g.json", cache_manual := true }
      = .ok (abiFixB, []) := rfl

/-- C4 (amended): `cacheManual` persists the resolved definition with
provenance `"manual"` only when the definition comes from the `inline`
option; a `filePath` resolution returns the file content with the
store untouched, `cacheManual` notwithstanding. -/
theorem c4_cache_manual_inline_only (env : ResolveEnv) (store : Store)
    (addr : String) (opts : ResolveOpts) :
    (∀ abi s2 row, opts.abi_inline = some abi → opts.cache_manual = true →
      AtMostOnePerKey store →
      saveAbi env.checksum store addr abi (some opts.network) "manual" env.now
        = .ok (s2, row) →
      resolveAbi env store addr opts = .ok (abi, s2) ∧
      s2.filter (keyMatches row.address row.network) = [row] ∧
      row.abi = abi ∧ row.source = "manual") ∧
    (∀ p abi, opts.abi_inline = none → opts.abi_path = some p →
      env.files p = some abi →
      resolveAbi env store addr opts = .ok (abi, store)) := by
  constructor
  · intro abi s2 row h1 h2 hinv hs
    obtain ⟨ca, -, -, -, habi, hsrc, -⟩ := saveAbi_ok_row env.checksum store
      addr abi (some opts.network) "manual" env.now s2 row hs
    exact ⟨by simp [resolveAbi, h1, h2, hs],
      saveAbi_filter_eq env.checksum store addr abi (some opts.network)
        "manual" env.now s2 row hinv hs,
      habi, hsrc⟩
  · intro p abi h1 h2 h3
    simp [resolveAbi, h1, h2, h3]

/-- C4 witness: an inline resolution with `cacheManual` persists a
single row with provenance `"manual"`. -/
theorem c4_cache_manual_inline_only_witness :
    resolveAbi renvFix [] "0xAB"
        { abi_inline := some abiFixB, cache_manual := true }
      = .ok (abiFixB, [saveRow "0xab" "sepolia" abiFixB "manual" 7]) ∧
    (saveRow "0xab" "sepolia" abiFixB "manual" 7).source = "manual" := by
  have h := (c4_cache_manual_inline_only renvFix [] "0xAB"
    { abi_inline := some abiFixB, cache_manual := true }).1
    abiFixB [saveRow "0xab" "sepolia" abiFixB "manual" 7]
    (saveRow "0xab" "sepolia" abiFixB "manual" 7)
    rfl rfl atMostOne_nil (by rfl)
  exact ⟨h.1, h.2.2.2⟩

end DefiAudit
